import Mathlib

/-!
Verification of the clinical-data ETL service core
(`src/etl-service/src/data_processing.py` and `src/etl-service/src/main.py`).

Shallow embedding notes:
* A pandas DataFrame is modelled as a `List` of rows.  A raw row (as produced
  by `read_csv`) carries `Option`-valued fields (a `none` is a NaN cell); the
  `timestamp` column is modelled by `RawTs`, recording whether the cell is
  missing, unparsable, a timezone-naive instant, or a UTC-aware instant —
  exactly the distinctions `pd.to_datetime(..., errors=coerce)` and the
  dtype assertion in `transform_data` are sensitive to.
* Floats (`value`, `quality_score`) are modelled as rationals: the code only
  compares them, never does arithmetic, so the ordered-field fragment used is
  exact.  Instants are modelled as integers (nanoseconds since epoch).
* `pd.Timestamp.now` is an ambient clock; it is made an explicit `now : Int`
  parameter of `validate_data` and of the pipeline.
* `read_csv` is an external effect; it is an explicit oracle
  `fs : String → Except String (List RawRow)` mapping a path to either the
  parsed rows or the text of the raised exception.
* The dtype assertions of `transform_data` other than the one on `timestamp`
  compare columns that in this model are typed by construction (the raw row
  already carries `Option String` / `Option ℚ` cells, mirroring successful
  CSV type inference), so only the `timestamp` dtype assertion can fail here.
* Exceptions are `Except String`; the orchestrator try/except is the final
  `match`.  Job state is the dictionary entry mutated by `etl_pipeline`.
-/

namespace ClinicalETL

/-- A cleaned row, after `transform_data`: all eight declared columns present
and typed (`study_id`, `participant_id`, `measurement_type`, `unit`,
`site_id` strings; `value`, `quality_score` numeric; `timestamp` a UTC
instant in nanoseconds). -/
structure Row where
  study_id : String
  participant_id : String
  measurement_type : String
  value : ℚ
  unit : String
  timestamp : Int
  site_id : String
  quality_score : ℚ
deriving DecidableEq, Repr

/-- The state of a raw `timestamp` cell: missing (NaN, dropped by the first
`dropna`), unparsable (coerced to NaT by `pd.to_datetime` and dropped by the
second `dropna`), parsed but timezone-naive, or parsed as a UTC-aware
instant. -/
inductive RawTs where
  | missing : RawTs
  | unparsable : RawTs
  | naive (t : Int) : RawTs
  | utcAware (t : Int) : RawTs
deriving DecidableEq, Repr

/-- A raw row straight out of `pd.read_csv`: every cell may be NaN. -/
structure RawRow where
  study_id : Option String
  participant_id : Option String
  measurement_type : Option String
  value : Option ℚ
  unit : Option String
  timestamp : RawTs
  site_id : Option String
  quality_score : Option ℚ
deriving DecidableEq, Repr

/-- Model of `data.dropna()`: a row survives iff no cell is NaN. -/
def RawRow.complete (r : RawRow) : Bool :=
  r.study_id.isSome && r.participant_id.isSome && r.measurement_type.isSome &&
  r.value.isSome && r.unit.isSome && (r.timestamp != RawTs.missing) &&
  r.site_id.isSome && r.quality_score.isSome

/-- Whether `pd.to_datetime(..., errors=coerce)` yields a non-NaT value. -/
def RawTs.parses : RawTs → Bool
  | RawTs.naive _ => true
  | RawTs.utcAware _ => true
  | _ => false

/-- Whether the parsed timestamp is a UTC-aware instant. -/
def RawTs.isUtc : RawTs → Bool
  | RawTs.utcAware _ => true
  | _ => false

/-- A raw row that survives both `dropna` steps of `transform_data`
(all cells present and the timestamp parses). -/
def RawRow.survives (r : RawRow) : Bool :=
  r.complete && r.timestamp.parses

/-- Conversion of a surviving raw row with a UTC-aware timestamp into a typed
row; `none` when a cell is missing or the timestamp is not a UTC instant. -/
def RawRow.toRow? (r : RawRow) : Option Row :=
  match r.study_id, r.participant_id, r.measurement_type, r.value, r.unit,
        r.timestamp, r.site_id, r.quality_score with
  | some sid, some pid, some mt, some v, some u, RawTs.utcAware t, some site, some q =>
      some { study_id := sid, participant_id := pid, measurement_type := mt,
             value := v, unit := u, timestamp := t, site_id := site,
             quality_score := q }
  | _, _, _, _, _, _, _, _ => none

/-- The `datetime64[ns, UTC]` dtype assertion of `transform_data`: it holds
iff every row surviving the two `dropna` steps carries a UTC-aware
timestamp. -/
def tsDtypeUtc (data : List RawRow) : Bool :=
  (data.filter RawRow.survives).all (fun r => r.timestamp.isUtc)

/-- The cleaned rows: survivors of both `dropna` steps, converted to typed
rows (equals the surviving rows whenever the dtype assertion holds). -/
def cleanRows (data : List RawRow) : List Row :=
  data.filterMap RawRow.toRow?

/-- Same (participant_id, measurement_type) key — the `subset` of
`drop_duplicates`. -/
def keyEq (r s : Row) : Bool :=
  r.participant_id == s.participant_id && r.measurement_type == s.measurement_type

/-- The comparison of `sort_values(by=quality_score, ascending=False)`:
descending by quality score. -/
def scoreDescLe (r s : Row) : Bool :=
  decide (s.quality_score ≤ r.quality_score)

/-- Model of `drop_duplicates(subset=[participant_id, measurement_type], keep=first)`:
keep the first row of each key, preserving order. -/
def dedupByKey : List Row → List Row
  | [] => []
  | r :: rs => r :: dedupByKey (rs.filter (fun s => !keyEq r s))
termination_by l => l.length
decreasing_by
  simp only [List.length_cons]
  exact Nat.lt_succ_of_le (List.length_filter_le _ _)

/-- Model of `transform_data`: drop rows with NaN cells, coerce timestamps and drop
parse failures, assert the coerced dtypes (only the `timestamp` assertion can
fail in this model; a failed bare `assert` raises `AssertionError` whose
`str` is the empty string), then sort by descending quality score and keep
the first row of each (participant_id, measurement_type) key. -/
def transform_data (data : List RawRow) : Except String (List Row) :=
  if tsDtypeUtc data then
    Except.ok (dedupByKey ((cleanRows data).mergeSort scoreDescLe))
  else
    Except.error ""

/-- The unit values observed for one measurement type, without repetition
(`group[unit].unique()` of the groupby in `validate_data`). -/
def unitsOf (data : List Row) (mt : String) : List String :=
  ((data.filter (fun r => r.measurement_type == mt)).map (fun r => r.unit)).dedup

/-- Model of `validate_data`: all values non-negative, all quality scores in [0,1],
no timestamp after `now` (the instant validation runs), and each measurement
type observed uses exactly one unit.  The `assert` failures are caught and
reported as `false`. -/
def validate_data (now : Int) (data : List Row) : Bool :=
  data.all (fun r => decide (0 ≤ r.value)) &&
  data.all (fun r => decide (0 ≤ r.quality_score) && decide (r.quality_score ≤ 1)) &&
  data.all (fun r => decide (r.timestamp ≤ now)) &&
  (data.map (fun r => r.measurement_type)).dedup.all
    (fun mt => (unitsOf data mt).length == 1)

/-- Model of `load_data`: the body is `pass` — no store mutation, no failure. -/
def load_data (_data : List Row) : Unit := ()

/-- Model of `extract_data`: prepend the data directory and read the file through the
`fs` oracle (the oracle returns the raised exception text on failure). -/
def extract_data (fs : String → Except String (List RawRow)) (filename : String) :
    Except String (List RawRow) :=
  fs ("/app/data/" ++ filename)

/-- One job registry entry: the dictionary stored at `jobs[job_id]`. -/
structure Job where
  jobId : String
  filename : String
  studyId : Option String
  status : String
  progress : Nat
  message : String
deriving DecidableEq, Repr

/-- Result of one orchestrator run: the final job entry, which stages were
entered, and the progress values written, in order. -/
structure RunResult where
  job : Job
  ranTransform : Bool
  ranValidate : Bool
  ranLoad : Bool
  progressWrites : List Nat
deriving DecidableEq, Repr

/-- The `except` handler of `etl_pipeline`. -/
def failJob (job : Job) (e : String) : Job :=
  { job with
    status := "failed", message := "ETL process failed: " ++ e, progress := 100 }

/-- Model of `etl_pipeline`: run the four stages in order over the job entry,
mirroring the source line by line; any stage exception is caught by the
trailing handler and no exception escapes (the function is total). -/
def etl_pipeline (fs : String → Except String (List RawRow)) (now : Int)
    (filename : String) (job : Job) : RunResult :=
  let job := { job with message := "Extracting data" }
  match extract_data fs filename with
  | Except.error e =>
      { job := failJob job e, ranTransform := false, ranValidate := false,
        ranLoad := false, progressWrites := [100] }
  | Except.ok data =>
  let job := { job with progress := 25, message := "Transforming data" }
  match transform_data data with
  | Except.error e =>
      { job := failJob job e, ranTransform := true, ranValidate := false,
        ranLoad := false, progressWrites := [25, 100] }
  | Except.ok rows =>
  let job := { job with progress := 50, message := "Validating data" }
  if validate_data now rows then
    let job := { job with progress := 75, message := "Loading data into database" }
    let _ := load_data rows
    let job := { job with
      progress := 100, status := "completed",
      message := "ETL process completed successfully" }
    { job := job, ranTransform := true, ranValidate := true, ranLoad := true,
      progressWrites := [25, 50, 75, 100] }
  else
    { job := { job with
        status := "failed", message := "Data validation failed", progress := 100 },
      ranTransform := true, ranValidate := true, ranLoad := false,
      progressWrites := [25, 50, 100] }

/-- The request body of `POST /jobs`. -/
structure ETLJobRequest where
  jobId : String
  filename : String
  studyId : Option String
deriving DecidableEq, Repr

/-- The response body of `POST /jobs`. -/
structure ETLJobResponse where
  jobId : String
  status : String
  message : String
deriving DecidableEq, Repr

/-- A pipeline task spawned by `asyncio.create_task`. -/
structure PipelineTask where
  filename : String
  jobId : String
deriving DecidableEq, Repr

/-- The in-memory `jobs` dictionary, keyed by job identifier. -/
def Registry := List (String × Job)

/-- Dictionary lookup `jobs[job_id]`. -/
def lookupJob (jobs : Registry) (id : String) : Option Job :=
  match jobs with
  | [] => none
  | (k, j) :: rest => if k == id then some j else lookupJob rest id

/-- Result of `submit_job`: the registry after the call, the HTTP outcome
(error = status code and detail of the raised `HTTPException`), and the
pipeline tasks created by this call. -/
structure SubmitResult where
  registry : Registry
  outcome : Except (Nat × String) ETLJobResponse
  tasks : List PipelineTask

/-- Model of `submit_job` (`POST /jobs`): reject a duplicate job id with HTTP 400
before touching the registry; otherwise store the fresh running entry and
spawn exactly one pipeline task. -/
def submit_job (jobs : Registry) (req : ETLJobRequest) : SubmitResult :=
  if (lookupJob jobs req.jobId).isSome then
    { registry := jobs,
      outcome := Except.error (400, "Job ID already exists"),
      tasks := [] }
  else
    { registry := (req.jobId,
        { jobId := req.jobId, filename := req.filename, studyId := req.studyId,
          status := "running", progress := 0, message := "Job started" }) :: jobs,
      outcome := Except.ok
        { jobId := req.jobId, status := "running",
          message := "Job submitted successfully" },
      tasks := [{ filename := req.filename, jobId := req.jobId }] }

/-- Re-injection of a cleaned row into a raw record set (every cell present,
timestamp a UTC instant), used to state idempotence of the transformation. -/
def Row.toRaw (r : Row) : RawRow :=
  { study_id := some r.study_id, participant_id := some r.participant_id,
    measurement_type := some r.measurement_type, value := some r.value,
    unit := some r.unit, timestamp := RawTs.utcAware r.timestamp,
    site_id := some r.site_id, quality_score := some r.quality_score }

/-! ### Concrete sample data used by witnesses and counterexamples -/

/-- A well-formed cleaned row (blood pressure 120 mmHg at instant 5,
quality score 1; the scores of the sample data are integral so that proofs
can evaluate them by kernel reduction). -/
def sampleRow : Row :=
  { study_id := "S1", participant_id := "P1", measurement_type := "bp",
    value := 120, unit := "mmHg", timestamp := 5, site_id := "A",
    quality_score := 1 }

/-- A second row, same participant and measurement type, lower quality. -/
def sampleRowLow : Row :=
  { sampleRow with quality_score := 0, value := 130 }

/-- A fresh job entry as created by `submit_job`. -/
def sampleJob : Job :=
  { jobId := "job-1", filename := "f.csv", studyId := none,
    status := "running", progress := 0, message := "Job started" }

/-! ### Helper lemmas -/

lemma dedup_length_one_iff {α : Type} [DecidableEq α] {l : List α}
    (hne : l ≠ []) : l.dedup.length = 1 ↔ ∀ a ∈ l, ∀ b ∈ l, a = b := by
  constructor
  · intro h a ha b hb
    obtain ⟨u, hu⟩ := List.length_eq_one.mp h
    have ha2 := List.mem_dedup.mpr ha
    have hb2 := List.mem_dedup.mpr hb
    rw [hu, List.mem_singleton] at ha2 hb2
    rw [ha2, hb2]
  · intro h
    obtain ⟨x, xs, rfl⟩ := List.exists_cons_of_ne_nil hne
    have hx : x ∈ (x :: xs).dedup := List.mem_dedup.mpr (List.mem_cons_self x xs)
    cases hd : (x :: xs).dedup with
    | nil => rw [hd] at hx; exact absurd hx (List.not_mem_nil x)
    | cons u tl =>
      cases tl with
      | nil => rfl
      | cons v tl2 =>
        have hnd := List.nodup_dedup (x :: xs)
        rw [hd] at hnd
        have hu : u ∈ x :: xs :=
          List.mem_dedup.mp (by rw [hd]; exact List.mem_cons_self _ _)
        have hv : v ∈ x :: xs :=
          List.mem_dedup.mp
            (by rw [hd]; exact List.mem_cons_of_mem _ (List.mem_cons_self _ _))
        rw [List.nodup_cons] at hnd
        exact absurd (by rw [h u hu v hv]; exact List.mem_cons_self _ _) hnd.1

/-- The groupby/unique check of `validate_data`, as a pairwise property. -/
lemma unit_check_iff (data : List Row) :
    ((data.map (fun r => r.measurement_type)).dedup.all
       (fun mt => (unitsOf data mt).length == 1)) = true ↔
    ∀ r ∈ data, ∀ s ∈ data,
      r.measurement_type = s.measurement_type → r.unit = s.unit := by
  simp only [List.all_eq_true, List.mem_dedup, List.mem_map, beq_iff_eq,
    forall_exists_index, and_imp, unitsOf]
  constructor
  · intro h r hr s hs hmt
    have hlen := h r.measurement_type r hr rfl
    have hrm : r.unit ∈ (data.filter
        (fun a => a.measurement_type == r.measurement_type)).map (fun a => a.unit) :=
      List.mem_map.mpr ⟨r, List.mem_filter.mpr ⟨hr, beq_iff_eq.mpr rfl⟩, rfl⟩
    have hsm : s.unit ∈ (data.filter
        (fun a => a.measurement_type == r.measurement_type)).map (fun a => a.unit) :=
      List.mem_map.mpr ⟨s, List.mem_filter.mpr ⟨hs, beq_iff_eq.mpr hmt.symm⟩, rfl⟩
    exact (dedup_length_one_iff (List.ne_nil_of_mem hrm)).mp hlen _ hrm _ hsm
  · intro h mt r hr hrmt
    apply (dedup_length_one_iff ?_).mpr
    · intro a ha b hb
      obtain ⟨ra, hra, rfl⟩ := List.mem_map.mp ha
      obtain ⟨rb, hrb, rfl⟩ := List.mem_map.mp hb
      have hamt := beq_iff_eq.mp (List.mem_filter.mp hra).2
      have hbmt := beq_iff_eq.mp (List.mem_filter.mp hrb).2
      exact h ra (List.mem_filter.mp hra).1 rb (List.mem_filter.mp hrb).1
        (hamt.trans hbmt.symm)
    · exact List.ne_nil_of_mem
        (List.mem_map.mpr ⟨r, List.mem_filter.mpr ⟨hr, beq_iff_eq.mpr hrmt⟩, rfl⟩)

/-! ### Validation stage -/

/-- C1: `validate_data` returns `true` exactly when every value is
non-negative, every quality score lies in [0,1], no timestamp is after the
instant `now` at which validation runs, and rows sharing a measurement type
share a single unit; on any rule violation it returns `false` (it is a total
function, so it never raises). -/
theorem validate_data_iff (now : Int) (data : List Row) :
    validate_data now data = true ↔
      ((∀ r ∈ data, 0 ≤ r.value) ∧
       (∀ r ∈ data, 0 ≤ r.quality_score ∧ r.quality_score ≤ 1) ∧
       (∀ r ∈ data, r.timestamp ≤ now) ∧
       (∀ r ∈ data, ∀ s ∈ data,
         r.measurement_type = s.measurement_type → r.unit = s.unit)) := by
  unfold validate_data
  rw [Bool.and_eq_true, Bool.and_eq_true, Bool.and_eq_true, unit_check_iff]
  simp only [List.all_eq_true, Bool.and_eq_true, decide_eq_true_eq]
  tauto

/-- C8 counterexample: the verdict of `validate_data` is not a function of
the record set alone — it also reads the clock.  A record timestamped at
instant 5 is future-dated when validation runs at instant 3 but not at
instant 10, so the two invocations on the very same input disagree. -/
theorem validate_data_not_clock_free :
    ¬ (∀ (data : List Row) (t1 t2 : Int),
        validate_data t1 data = validate_data t2 data) := by
  intro h
  have h35 := h [sampleRow] 3 10
  rw [show validate_data 3 [sampleRow] = false by decide,
      show validate_data 10 [sampleRow] = true by decide] at h35
  exact Bool.false_ne_true h35

/-- C8 (amended): `validate_data` is deterministic in its input and the
validation instant: two invocations whose instants classify every row's
timestamp identically (in particular, two invocations at the same instant)
return the same boolean.  The input is never mutated: in this model
`validate_data` is a pure total function of `(now, data)`. -/
theorem validate_data_deterministic (data : List Row) (t1 t2 : Int)
    (h : ∀ r ∈ data, r.timestamp ≤ t1 ↔ r.timestamp ≤ t2) :
    validate_data t1 data = validate_data t2 data := by
  unfold validate_data
  have hc : (data.all fun r => decide (r.timestamp ≤ t1)) =
      (data.all fun r => decide (r.timestamp ≤ t2)) := by
    rw [Bool.eq_iff_iff]
    simp only [List.all_eq_true, decide_eq_true_eq]
    exact ⟨fun ha r hr => (h r hr).mp (ha r hr),
           fun ha r hr => (h r hr).mpr (ha r hr)⟩
  rw [hc]

/-- C8 witness. -/
theorem validate_data_deterministic_witness :
    validate_data 10 [sampleRow] = validate_data 20 [sampleRow] :=
  validate_data_deterministic [sampleRow] 10 20 (by decide)

/-! ### Transformation stage: the dtype assertion -/

/-- C10: whenever some row survives both `dropna` steps (all cells present,
timestamp parses) but its timestamp is not a UTC-aware instant, the
`datetime64[ns, UTC]` dtype assertion of `transform_data` fails: the whole
call raises (modelled as `Except.error`; a bare `assert` carries the empty
message) and no cleaned record set is produced — the offending rows are not
merely discarded. -/
theorem transform_data_naive_timestamp_raises (data : List RawRow)
    (h : ∃ r ∈ data, r.survives = true ∧ r.timestamp.isUtc = false) :
    transform_data data = Except.error "" ∧
      ¬ ∃ out, transform_data data = Except.ok out := by
  have hts : tsDtypeUtc data = false := by
    obtain ⟨r, hr, hs, hn⟩ := h
    rw [tsDtypeUtc, Bool.eq_false_iff]
    intro hall
    rw [List.all_eq_true] at hall
    exact Bool.false_ne_true
      (hn ▸ hall r (List.mem_filter.mpr ⟨hr, hs⟩))
  rw [transform_data, hts]
  exact ⟨rfl, by simp⟩

/-- C10 witness. -/
theorem transform_data_naive_timestamp_raises_witness :
    transform_data [{ sampleRow.toRaw with timestamp := RawTs.naive 5 }] =
      Except.error "" :=
  (transform_data_naive_timestamp_raises
    [{ sampleRow.toRaw with timestamp := RawTs.naive 5 }]
    ⟨_, List.mem_cons_self _ _, by decide⟩).1

/-- Evaluation helper: transforming the one-row record set obtained from a
cleaned row returns that row. -/
lemma transform_data_single (r : Row) :
    transform_data [r.toRaw] = Except.ok [r] := by
  rw [transform_data, show tsDtypeUtc [r.toRaw] = true from rfl, if_pos rfl,
      show cleanRows [r.toRaw] = [r] from rfl, List.mergeSort_singleton]
  rw [show dedupByKey [r] = [r] by simp [dedupByKey]]

/-! ### Orchestrator -/

/-- C3: `etl_pipeline` is a total function (no exception escapes it); every
stage exception — in this model exceptions can arise from the Extract oracle
and from Transform, while Validate and Load are total — is converted into
status `failed`, progress 100 and the human-readable message
`ETL process failed: <cause>`, and the stages after the failing one are not
executed. -/
theorem etl_pipeline_catches_stage_errors
    (fs : String → Except String (List RawRow)) (now : Int)
    (filename : String) (job : Job) (e : String) :
    (extract_data fs filename = Except.error e →
      (etl_pipeline fs now filename job).job.status = "failed" ∧
      (etl_pipeline fs now filename job).job.progress = 100 ∧
      (etl_pipeline fs now filename job).job.message =
        "ETL process failed: " ++ e ∧
      (etl_pipeline fs now filename job).ranTransform = false ∧
      (etl_pipeline fs now filename job).ranValidate = false ∧
      (etl_pipeline fs now filename job).ranLoad = false) ∧
    (∀ data, extract_data fs filename = Except.ok data →
      transform_data data = Except.error e →
      (etl_pipeline fs now filename job).job.status = "failed" ∧
      (etl_pipeline fs now filename job).job.progress = 100 ∧
      (etl_pipeline fs now filename job).job.message =
        "ETL process failed: " ++ e ∧
      (etl_pipeline fs now filename job).ranValidate = false ∧
      (etl_pipeline fs now filename job).ranLoad = false) := by
  constructor
  · intro hx
    simp [etl_pipeline, hx, failJob]
  · intro data hx ht
    simp [etl_pipeline, hx, ht, failJob]

/-- C3 witness. -/
theorem etl_pipeline_catches_stage_errors_witness :
    ((etl_pipeline (fun _ => Except.error "boom") 10 "f.csv" sampleJob).job.status
        = "failed" ∧
      (etl_pipeline (fun _ => Except.error "boom") 10 "f.csv" sampleJob).job.message
        = "ETL process failed: boom") ∧
    ((etl_pipeline
        (fun _ => Except.ok [{ sampleRow.toRaw with timestamp := RawTs.naive 5 }])
        10 "f.csv" sampleJob).job.status = "failed" ∧
      (etl_pipeline
        (fun _ => Except.ok [{ sampleRow.toRaw with timestamp := RawTs.naive 5 }])
        10 "f.csv" sampleJob).ranLoad = false) := by
  have h1 := (etl_pipeline_catches_stage_errors
    (fun _ => Except.error "boom") 10 "f.csv" sampleJob "boom").1 rfl
  have h2 := (etl_pipeline_catches_stage_errors
    (fun _ => Except.ok [{ sampleRow.toRaw with timestamp := RawTs.naive 5 }])
    10 "f.csv" sampleJob "").2
    [{ sampleRow.toRaw with timestamp := RawTs.naive 5 }] rfl rfl
  exact ⟨⟨h1.1, h1.2.2.1⟩, ⟨h2.1, h2.2.2.2.2⟩⟩

/-- C5: at the Validate step, a `true` verdict sets progress 75 (the written
progress values are 25, 50, 75, 100 in order) and runs the Load stage; a
`false` verdict ends the job failed with message exactly
`Data validation failed` and progress 100, and Load is never invoked. -/
theorem etl_pipeline_validation_gate
    (fs : String → Except String (List RawRow)) (now : Int)
    (filename : String) (job : Job) (raw : List RawRow) (rows : List Row)
    (hx : extract_data fs filename = Except.ok raw)
    (ht : transform_data raw = Except.ok rows) :
    (validate_data now rows = true →
      (etl_pipeline fs now filename job).progressWrites = [25, 50, 75, 100] ∧
      (etl_pipeline fs now filename job).ranLoad = true) ∧
    (validate_data now rows = false →
      (etl_pipeline fs now filename job).job.status = "failed" ∧
      (etl_pipeline fs now filename job).job.message = "Data validation failed" ∧
      (etl_pipeline fs now filename job).job.progress = 100 ∧
      (etl_pipeline fs now filename job).ranLoad = false ∧
      (etl_pipeline fs now filename job).progressWrites = [25, 50, 100]) := by
  constructor
  · intro hv
    simp [etl_pipeline, hx, ht, hv]
  · intro hv
    simp [etl_pipeline, hx, ht, hv]

/-- C5 witness (both branches, with a passing and a failing validation
instant for the same record set). -/
theorem etl_pipeline_validation_gate_witness :
    ((etl_pipeline (fun _ => Except.ok [sampleRow.toRaw]) 10 "f.csv" sampleJob).ranLoad
        = true) ∧
    ((etl_pipeline (fun _ => Except.ok [sampleRow.toRaw]) 3 "f.csv" sampleJob).job.message
        = "Data validation failed") := by
  have h1 := ((etl_pipeline_validation_gate (fun _ => Except.ok [sampleRow.toRaw])
    10 "f.csv" sampleJob [sampleRow.toRaw] [sampleRow] rfl
    (transform_data_single sampleRow)).1 (by decide)).2
  have h2 := ((etl_pipeline_validation_gate (fun _ => Except.ok [sampleRow.toRaw])
    3 "f.csv" sampleJob [sampleRow.toRaw] [sampleRow] rfl
    (transform_data_single sampleRow)).2 (by decide)).2.1
  exact ⟨h1, h2⟩

/-- C6: when all four stages succeed and validation returns `true`, the job
ends with status `completed`, progress 100, and message exactly
`ETL process completed successfully`. -/
theorem etl_pipeline_success (fs : String → Except String (List RawRow))
    (now : Int) (filename : String) (job : Job) (raw : List RawRow)
    (rows : List Row) (hx : extract_data fs filename = Except.ok raw)
    (ht : transform_data raw = Except.ok rows)
    (hv : validate_data now rows = true) :
    (etl_pipeline fs now filename job).job.status = "completed" ∧
    (etl_pipeline fs now filename job).job.progress = 100 ∧
    (etl_pipeline fs now filename job).job.message =
      "ETL process completed successfully" := by
  simp [etl_pipeline, hx, ht, hv]

/-- C6 witness. -/
theorem etl_pipeline_success_witness :
    (etl_pipeline (fun _ => Except.ok [sampleRow.toRaw]) 10 "f.csv" sampleJob).job.status
      = "completed" :=
  (etl_pipeline_success (fun _ => Except.ok [sampleRow.toRaw]) 10 "f.csv"
    sampleJob [sampleRow.toRaw] [sampleRow] rfl
    (transform_data_single sampleRow) (by decide)).1

/-- C9: `load_data` is a no-op — it returns `()` for every record set,
performs no store mutation and cannot fail (it is a total pure function, so
a `PersistenceError` is unreachable) — and consequently every run that
reaches the Load stage (validation returned `true`) terminates with status
`completed`. -/
theorem load_data_noop :
    (∀ data : List Row, load_data data = ()) ∧
    (∀ (fs : String → Except String (List RawRow)) (now : Int)
       (filename : String) (job : Job) (raw : List RawRow) (rows : List Row),
      extract_data fs filename = Except.ok raw →
      transform_data raw = Except.ok rows →
      validate_data now rows = true →
      (etl_pipeline fs now filename job).ranLoad = true ∧
      (etl_pipeline fs now filename job).job.status = "completed") := by
  refine ⟨fun _ => rfl, fun fs now filename job raw rows hx ht hv => ?_⟩
  simp [etl_pipeline, hx, ht, hv]

/-- C9 witness. -/
theorem load_data_noop_witness :
    load_data [sampleRow] = () ∧
    (etl_pipeline (fun _ => Except.ok [sampleRow.toRaw]) 10 "f.csv" sampleJob).ranLoad
      = true :=
  ⟨load_data_noop.1 [sampleRow],
   (load_data_noop.2 (fun _ => Except.ok [sampleRow.toRaw]) 10 "f.csv"
     sampleJob [sampleRow.toRaw] [sampleRow] rfl
     (transform_data_single sampleRow) (by decide)).1⟩

/-! ### Job submission -/

/-- C7: submitting a job whose id is already registered fails with HTTP 400
(`DuplicateJob`) and leaves the registry — in particular the existing job's
stored state — untouched, and spawns no pipeline task; submitting a fresh id
stores a `running` entry with progress 0 and spawns exactly one pipeline
task for it. -/
theorem submit_job_spec (jobs : Registry) (req : ETLJobRequest) :
    (∀ j, lookupJob jobs req.jobId = some j →
      (submit_job jobs req).registry = jobs ∧
      lookupJob (submit_job jobs req).registry req.jobId = some j ∧
      (submit_job jobs req).outcome =
        Except.error (400, "Job ID already exists") ∧
      (submit_job jobs req).tasks = []) ∧
    (lookupJob jobs req.jobId = none →
      lookupJob (submit_job jobs req).registry req.jobId = some
        { jobId := req.jobId, filename := req.filename, studyId := req.studyId,
          status := "running", progress := 0, message := "Job started" } ∧
      (submit_job jobs req).outcome = Except.ok
        { jobId := req.jobId, status := "running",
          message := "Job submitted successfully" } ∧
      (submit_job jobs req).tasks =
        [{ filename := req.filename, jobId := req.jobId }]) := by
  constructor
  · intro j hj
    simp [submit_job, hj]
  · intro hj
    simp [submit_job, hj, lookupJob]

/-- C7 witness (a duplicate submission against a one-entry registry, and a
fresh submission against the empty registry). -/
theorem submit_job_spec_witness :
    ((submit_job [("job-1", sampleJob)]
        { jobId := "job-1", filename := "g.csv", studyId := none }).registry =
      [("job-1", sampleJob)]) ∧
    ((submit_job []
        { jobId := "job-1", filename := "f.csv", studyId := none }).tasks =
      [{ filename := "f.csv", jobId := "job-1" }]) := by
  have h1 := ((submit_job_spec [("job-1", sampleJob)]
    { jobId := "job-1", filename := "g.csv", studyId := none }).1 sampleJob
    (by rfl)).1
  have h2 := ((submit_job_spec []
    { jobId := "job-1", filename := "f.csv", studyId := none }).2 rfl).2.2
  exact ⟨h1, h2⟩

/-! ### Deduplication lemmas -/

lemma keyEq_iff {r s : Row} : keyEq r s = true ↔
    r.participant_id = s.participant_id ∧
    r.measurement_type = s.measurement_type := by
  simp [keyEq]

lemma keyEq_refl (r : Row) : keyEq r r = true := by
  simp [keyEq]

lemma keyEq_symm {r s : Row} (h : keyEq r s = true) : keyEq s r = true := by
  rw [keyEq_iff] at h ⊢
  exact ⟨h.1.symm, h.2.symm⟩

lemma keyEq_trans {r s t : Row} (h1 : keyEq r s = true)
    (h2 : keyEq s t = true) : keyEq r t = true := by
  rw [keyEq_iff] at h1 h2 ⊢
  exact ⟨h1.1.trans h2.1, h1.2.trans h2.2⟩

lemma scoreDescLe_trans : ∀ a b c : Row,
    scoreDescLe a b → scoreDescLe b c → scoreDescLe a c := by
  intro a b c hab hbc
  simp only [scoreDescLe, decide_eq_true_eq] at hab hbc ⊢
  exact le_trans hbc hab

lemma scoreDescLe_total : ∀ a b : Row, scoreDescLe a b || scoreDescLe b a := by
  intro a b
  simp only [scoreDescLe, Bool.or_eq_true, decide_eq_true_eq]
  exact le_total b.quality_score a.quality_score

lemma dedupByKey_sublist (l : List Row) : (dedupByKey l).Sublist l := by
  induction l using dedupByKey.induct with
  | case1 => simp [dedupByKey]
  | case2 r rs ih =>
      rw [dedupByKey]
      exact (ih.trans (List.filter_sublist rs)).cons₂ r

lemma mem_of_mem_dedupByKey {a : Row} {l : List Row}
    (h : a ∈ dedupByKey l) : a ∈ l :=
  (dedupByKey_sublist l).subset h

/-- The output of the deduplication step carries pairwise distinct
(participant_id, measurement_type) keys. -/
lemma dedupByKey_pairwise (l : List Row) :
    (dedupByKey l).Pairwise (fun a b => keyEq a b = false) := by
  induction l using dedupByKey.induct with
  | case1 => simp [dedupByKey]
  | case2 r rs ih =>
      rw [dedupByKey]
      refine List.Pairwise.cons (fun b hb => ?_) ih
      have hb2 := (List.mem_filter.mp (mem_of_mem_dedupByKey hb)).2
      simpa using hb2

/-- Deduplication is the identity on a list with pairwise distinct keys. -/
lemma dedupByKey_eq_self (l : List Row) :
    l.Pairwise (fun a b => keyEq a b = false) → dedupByKey l = l := by
  induction l using dedupByKey.induct with
  | case1 => intro _; rw [dedupByKey]
  | case2 r rs ih =>
      intro h
      rw [List.pairwise_cons] at h
      have hf : rs.filter (fun s => !keyEq r s) = rs :=
        List.filter_eq_self.mpr (fun s hs => by simp [h.1 s hs])
      rw [dedupByKey, hf]
      rw [hf] at ih
      rw [ih h.2]

/-- Every key of the input list is represented in the deduplicated list. -/
lemma dedupByKey_covers (l : List Row) :
    ∀ s ∈ l, ∃ r ∈ dedupByKey l, keyEq r s = true := by
  induction l using dedupByKey.induct with
  | case1 => intro s hs; exact absurd hs (List.not_mem_nil s)
  | case2 r rs ih =>
      intro s hs
      rw [dedupByKey]
      rcases List.mem_cons.mp hs with rfl | hs2
      · exact ⟨s, List.mem_cons_self _ _, keyEq_refl s⟩
      · by_cases hk : keyEq r s = true
        · exact ⟨r, List.mem_cons_self _ _, hk⟩
        · have hsf : s ∈ rs.filter (fun x => !keyEq r x) :=
            List.mem_filter.mpr ⟨hs2, by simp [Bool.not_eq_true] at hk ⊢; exact hk⟩
          obtain ⟨t, ht, hts⟩ := ih s hsf
          exact ⟨t, List.mem_cons_of_mem r ht, hts⟩

/-- On a list sorted by descending quality score, each row kept by the
deduplication attains the maximum quality score of its key group. -/
lemma dedupByKey_max (l : List Row) :
    l.Pairwise (fun a b => scoreDescLe a b = true) →
    ∀ r ∈ dedupByKey l, ∀ s ∈ l, keyEq r s = true →
      s.quality_score ≤ r.quality_score := by
  induction l using dedupByKey.induct with
  | case1 =>
      intro _ r hr
      rw [dedupByKey] at hr
      exact absurd hr (List.not_mem_nil r)
  | case2 x xs ih =>
      intro hp r hr s hs hk
      rw [dedupByKey] at hr
      rw [List.pairwise_cons] at hp
      rcases List.mem_cons.mp hr with rfl | hr2
      · rcases List.mem_cons.mp hs with rfl | hs2
        · exact le_refl _
        · have := hp.1 s hs2
          simpa [scoreDescLe] using this
      · have hrf := (List.mem_filter.mp (mem_of_mem_dedupByKey hr2)).2
        have hxr : keyEq x r = false := by simpa using hrf
        rcases List.mem_cons.mp hs with rfl | hs2
        · exact absurd (keyEq_symm hk) (by simp [hxr])
        · by_cases hxs : keyEq x s = true
          · exact absurd (keyEq_trans hxs (keyEq_symm hk)) (by simp [hxr])
          · have hsf : s ∈ xs.filter (fun t => !keyEq x t) :=
              List.mem_filter.mpr
                ⟨hs2, by simp [Bool.not_eq_true] at hxs ⊢; exact hxs⟩
            have hpf : (xs.filter (fun t => !keyEq x t)).Pairwise
                (fun a b => scoreDescLe a b = true) :=
              hp.2.sublist (List.filter_sublist xs)
            exact ih hpf r hr2 s hsf hk

/-- A raw row that converts to a cleaned row has no missing cell and
survives both dropna steps. -/
lemma toRow_complete {raw : RawRow} {r : Row} (h : raw.toRow? = some r) :
    raw.complete = true := by
  obtain ⟨sid, pid, mt, v, u, ts, site, q⟩ := raw
  cases sid <;> cases pid <;> cases mt <;> cases v <;> cases u <;>
    cases ts <;> cases site <;> cases q <;>
    simp_all [RawRow.toRow?, RawRow.complete]

/-! ### Transformation invariants (C2) and idempotence (C4) -/

/-- C2: on every input on which `transform_data` returns, the output has
pairwise distinct (participant_id, measurement_type) keys; every output row
originates from an input row with no missing cell (and is therefore itself
fully populated and typed); every cleaned input row's key is represented in
the output; and each output row attains the maximum quality score among the
cleaned rows sharing its key. -/
theorem transform_data_invariants (data : List RawRow) (out : List Row)
    (h : transform_data data = Except.ok out) :
    out.Pairwise (fun a b => keyEq a b = false) ∧
    (∀ r ∈ out, ∃ raw ∈ data, raw.complete = true ∧ raw.toRow? = some r) ∧
    (∀ s ∈ cleanRows data, ∃ r ∈ out, keyEq r s = true) ∧
    (∀ r ∈ out, ∀ s ∈ cleanRows data, keyEq r s = true →
      s.quality_score ≤ r.quality_score) := by
  rw [transform_data] at h
  cases hc : tsDtypeUtc data with
  | false => rw [hc] at h; simp at h
  | true =>
    rw [hc] at h
    simp only [if_true] at h
    obtain rfl : dedupByKey ((cleanRows data).mergeSort scoreDescLe) = out :=
      by exact Except.ok.inj h
    have hsorted : ((cleanRows data).mergeSort scoreDescLe).Pairwise
        (fun a b => scoreDescLe a b = true) :=
      List.sorted_mergeSort scoreDescLe_trans scoreDescLe_total (cleanRows data)
    refine ⟨dedupByKey_pairwise _, ?_, ?_, ?_⟩
    · intro r hr
      have hr2 : r ∈ cleanRows data :=
        List.mem_mergeSort.mp (mem_of_mem_dedupByKey hr)
      obtain ⟨raw, hraw, hsome⟩ := List.mem_filterMap.mp hr2
      exact ⟨raw, hraw, toRow_complete hsome, hsome⟩
    · intro s hs
      exact dedupByKey_covers _ s (List.mem_mergeSort.mpr hs)
    · intro r hr s hs hk
      exact dedupByKey_max _ hsorted r hr s (List.mem_mergeSort.mpr hs) hk

/-- C2 witness. -/
theorem transform_data_invariants_witness :
    ([sampleRow].Pairwise (fun a b => keyEq a b = false)) ∧
    (∀ r ∈ [sampleRow], ∀ s ∈ cleanRows [sampleRow.toRaw],
      keyEq r s = true → s.quality_score ≤ r.quality_score) :=
  ⟨(transform_data_invariants [sampleRow.toRaw] [sampleRow]
      (transform_data_single sampleRow)).1,
   (transform_data_invariants [sampleRow.toRaw] [sampleRow]
      (transform_data_single sampleRow)).2.2.2⟩

/-- C4: transformation is idempotent — feeding the output of a successful
`transform_data` back through `transform_data` succeeds and returns the
same rows (here even in the same order: no row is dropped and no further
deduplication occurs). -/
theorem transform_data_idempotent (data : List RawRow) (out : List Row)
    (h : transform_data data = Except.ok out) :
    transform_data (out.map Row.toRaw) = Except.ok out := by
  rw [transform_data] at h
  cases hc : tsDtypeUtc data with
  | false => rw [hc] at h; simp at h
  | true =>
    rw [hc] at h
    simp only [if_true] at h
    obtain rfl : dedupByKey ((cleanRows data).mergeSort scoreDescLe) = out :=
      by exact Except.ok.inj h
    set L := (cleanRows data).mergeSort scoreDescLe with hL
    have hsorted : L.Pairwise (fun a b => scoreDescLe a b = true) :=
      List.sorted_mergeSort scoreDescLe_trans scoreDescLe_total (cleanRows data)
    have hsout : (dedupByKey L).Pairwise (fun a b => scoreDescLe a b = true) :=
      hsorted.sublist (dedupByKey_sublist L)
    have hkeys : (dedupByKey L).Pairwise (fun a b => keyEq a b = false) :=
      dedupByKey_pairwise L
    have h1 : tsDtypeUtc ((dedupByKey L).map Row.toRaw) = true := by
      rw [tsDtypeUtc, List.all_eq_true]
      intro x hx
      obtain ⟨r, _, rfl⟩ := List.mem_map.mp (List.mem_filter.mp hx).1
      rfl
    have h2 : ∀ l : List Row, cleanRows (l.map Row.toRaw) = l := by
      intro l
      induction l with
      | nil => rfl
      | cons a as ihl =>
          rw [List.map_cons, cleanRows, List.filterMap_cons,
              show RawRow.toRow? a.toRaw = some a from rfl]
          rw [cleanRows] at ihl
          rw [ihl]
    rw [transform_data, if_pos h1, h2]
    rw [List.mergeSort_of_sorted hsout]
    rw [dedupByKey_eq_self _ hkeys]

/-- C4 witness. -/
theorem transform_data_idempotent_witness :
    transform_data ([sampleRow].map Row.toRaw) = Except.ok [sampleRow] :=
  transform_data_idempotent [sampleRow.toRaw] [sampleRow]
    (transform_data_single sampleRow)

end ClinicalETL
